import Mathlib

/-!
Verification development for the Smart-Surveillance-System core pipeline.

The Python source is shallowly embedded here:
* pixel coordinates, timestamps and confidences (Python floats) become `ℚ`;
* frame counters (Python ints) become `ℤ`, track ids become `ℕ`;
* Python dicts keyed by track id become association lists in insertion order;
* comparisons `sqrt d < c` on nonnegative values are embedded as `d < c^2`
  (square root is strictly monotone on nonnegative reals).

Embedded functions keep the names of their Python counterparts:
`Detector._apply_nms`, `Detector._apply_person_nms`,
`working_app._deduplicate_weapons`, `TrackerMemory.update`,
`TrackerMemory.cleanup`, `BehaviourEngine.calculate_scores` and its helper
predicates, and the THREAT-upgrade / screenshot logic of
`working_app.process_video`.
-/

namespace Surveillance

/-- An axis-aligned pixel box `(x1, y1, x2, y2)`, as used throughout the source. -/
structure Box where
  x1 : ℚ
  y1 : ℚ
  x2 : ℚ
  y2 : ℚ
deriving DecidableEq

/-- A weapon / suspicious-item detection dict: `bbox`, `class`, `confidence`.
(`class` is a reserved word in Lean, the field is called `cls`.) -/
structure Detection where
  bbox : Box
  cls : String
  confidence : ℚ
deriving DecidableEq

/-- A person detection dict handed to `TrackerMemory.update`. -/
structure PersonDetection where
  track_id : ℕ
  bbox : Box
  confidence : ℚ
deriving DecidableEq

/-- The per-person entry stored in `TrackerMemory.memory`. -/
structure Track where
  track_id : ℕ
  first_seen_time : ℚ
  last_position : ℚ × ℚ
  bbox : Box
  last_seen_frame : ℤ
deriving DecidableEq

/-- The per-track record produced by `BehaviourEngine.calculate_scores`. -/
structure ScoreData where
  score : ℕ
  alert_level : String
  stay_duration : ℚ
  factors : List String
deriving DecidableEq

/-! ## Deduplication (NMS)

The source repeats one IoU helper verbatim at three call sites
(`Detector._apply_nms`, `Detector._apply_person_nms`,
`working_app._deduplicate_weapons`); it is embedded once. -/

/-- `calculate_iou` as written identically inside all three NMS call sites:
intersection area over union area, `0` when the boxes do not overlap on
either axis or the union is not positive. -/
def calculate_iou (box1 box2 : Box) : ℚ :=
  let x_left := max box1.x1 box2.x1
  let y_top := max box1.y1 box2.y1
  let x_right := min box1.x2 box2.x2
  let y_bottom := min box1.y2 box2.y2
  if x_right < x_left ∨ y_bottom < y_top then 0
  else
    let intersection := (x_right - x_left) * (y_bottom - y_top)
    let box1_area := (box1.x2 - box1.x1) * (box1.y2 - box1.y1)
    let box2_area := (box2.x2 - box2.x1) * (box2.y2 - box2.y1)
    let union := box1_area + box2_area - intersection
    if union > 0 then intersection / union else 0

/-- The greedy keep-loop shared by the three NMS implementations: walk the
confidence-sorted list, keeping a detection only when the site's duplicate
test `isDup` fails against every already-kept detection. -/
def nmsLoop (isDup : Detection → Detection → Bool) (keep : List Detection) :
    List Detection → List Detection
  | [] => keep
  | d :: rest =>
    if keep.any (fun kept => isDup d kept) then nmsLoop isDup keep rest
    else nmsLoop isDup (keep ++ [d]) rest

/-- Python's `list.sort(key=lambda x: x['confidence'], reverse=True)`:
a stable sort by descending confidence. -/
def sortByConfidenceDesc (detections : List Detection) : List Detection :=
  detections.mergeSort (fun a b => decide (b.confidence ≤ a.confidence))

/-- `Detector._apply_nms` (weapon dedup, default threshold 0.4, used with 0.5):
duplicate when IoU exceeds the threshold AND the classes match. -/
def apply_nms (detections : List Detection) (iou_threshold : ℚ) : List Detection :=
  if detections.isEmpty then []
  else
    nmsLoop
      (fun d kept =>
        decide (calculate_iou d.bbox kept.bbox > iou_threshold) && (d.cls == kept.cls))
      [] (sortByConfidenceDesc detections)

/-- `Detector._apply_person_nms` (person dedup, threshold 0.3):
duplicate on IoU alone, class-agnostic. -/
def apply_person_nms (detections : List Detection) (iou_threshold : ℚ) : List Detection :=
  if detections.isEmpty then []
  else
    nmsLoop
      (fun d kept => decide (calculate_iou d.bbox kept.bbox > iou_threshold))
      [] (sortByConfidenceDesc detections)

/-- `working_app._deduplicate_weapons`: duplicate when
`(iou > 0.2 and same class) or iou > 0.4`. -/
def deduplicate_weapons (weapons : List Detection) : List Detection :=
  if weapons.isEmpty then []
  else
    nmsLoop
      (fun w kept =>
        (decide (calculate_iou w.bbox kept.bbox > 1/5) && (w.cls == kept.cls))
          || decide (calculate_iou w.bbox kept.bbox > 2/5))
      [] (sortByConfidenceDesc weapons)

/-! ## TrackerMemory -/

/-- Centroid `((x1+x2)/2, (y1+y2)/2)` computed inside `TrackerMemory.update`. -/
def centerOf (b : Box) : ℚ × ℚ := ((b.x1 + b.x2) / 2, (b.y1 + b.y2) / 2)

/-- `self.memory.get(track_id)`: first entry with the given key. -/
def getTrack (memory : List (ℕ × Track)) (track_id : ℕ) : Option Track :=
  (memory.find? (fun e => e.1 == track_id)).map (fun e => e.2)

/-- The body of `TrackerMemory.update` for one detection: create a fresh
entry (with `first_seen_time = now`) for an unseen id, otherwise overwrite
`last_position`, `bbox` and `last_seen_frame` in place. -/
def updateOne (now : ℚ) (current_frame_count : ℤ) (memory : List (ℕ × Track))
    (d : PersonDetection) : List (ℕ × Track) :=
  if memory.any (fun e => e.1 == d.track_id) then
    memory.map (fun e =>
      if e.1 == d.track_id then
        (e.1, { e.2 with
                  last_position := centerOf d.bbox
                  bbox := d.bbox
                  last_seen_frame := current_frame_count })
      else e)
  else
    memory ++ [(d.track_id,
      { track_id := d.track_id
        first_seen_time := now
        last_position := centerOf d.bbox
        bbox := d.bbox
        last_seen_frame := current_frame_count })]

/-- `TrackerMemory.update`: fold `updateOne` over the detections of a frame. -/
def updateMemory (now : ℚ) (current_frame_count : ℤ) (memory : List (ℕ × Track))
    (person_detections : List PersonDetection) : List (ℕ × Track) :=
  person_detections.foldl (updateOne now current_frame_count) memory

/-- `TrackerMemory.cleanup`: collect the ids whose
`current_frame_count - last_seen_frame > timeout`, then delete them. -/
def cleanup (memory : List (ℕ × Track)) (current_frame_count : ℤ)
    (timeout : ℤ) : List (ℕ × Track) :=
  let tracks_to_remove :=
    (memory.filter
      (fun e => decide (current_frame_count - e.2.last_seen_frame > timeout))).map
      (fun e => e.1)
  tracks_to_remove.foldl (fun m tid => m.filter (fun e => e.1 != tid)) memory

/-! ## BehaviourEngine -/

/-- Squared Euclidean distance.  The source computes
`((x2-x1)**2 + (y2-y1)**2) ** 0.5` and compares against `20` / `100`;
since square root is strictly monotone on nonnegative reals, the embedding
compares the squared distance against `400` / `10000`. -/
def distSq (p q : ℚ × ℚ) : ℚ := (q.1 - p.1) ^ 2 + (q.2 - p.2) ^ 2

/-- A `(timestamp, position)` sample of `BehaviourEngine.position_history`. -/
abbrev Sample := ℚ × (ℚ × ℚ)

/-- `BehaviourEngine._is_in_restricted_zone`: inclusive containment of the
centroid in the configured rectangle; `False` when no zone is configured. -/
def is_in_restricted_zone (restricted_zone : Option Box) (position : ℚ × ℚ) : Bool :=
  match restricted_zone with
  | none => false
  | some z =>
    decide (z.x1 ≤ position.1 ∧ position.1 ≤ z.x2 ∧
            z.y1 ≤ position.2 ∧ position.2 ≤ z.y2)

/-- `BehaviourEngine._has_low_movement` over a track's history list:
needs at least 2 samples; scans the history in stored order and takes the
FIRST sample at least 5 seconds older than `current_time` (the `for`/`break`
loop of the source is exactly `List.find?`); fires when that sample is
within distance 20 (squared: 400) of the last stored position. -/
def has_low_movement (history : List Sample) (current_time : ℚ) : Bool :=
  if history.length < 2 then false
  else
    match history.find? (fun s => decide (current_time - s.1 ≥ 5)) with
    | none => false
    | some s =>
      match history.getLast? with
      | none => false
      | some cur => decide (distSq s.2 cur.2 < 400)

/-- `BehaviourEngine._has_rapid_movement`: same scan with a 2-second
lookback, firing when the distance exceeds 100 (squared: 10000). -/
def has_rapid_movement (history : List Sample) (current_time : ℚ) : Bool :=
  if history.length < 2 then false
  else
    match history.find? (fun s => decide (current_time - s.1 ≥ 2)) with
    | none => false
    | some s =>
      match history.getLast? with
      | none => false
      | some cur => decide (distSq s.2 cur.2 > 10000)

/-- `BehaviourEngine._check_weapon_near_person`'s loop body over one weapon:
the center test against the 20%-expanded person box (inclusive bounds),
then the raw-overlap test with strict bounds. -/
def weaponLoop (px1e py1e px2e py2e : ℚ) (person_bbox : Box) :
    List Detection → Option String
  | [] => none
  | weapon :: rest =>
    let cx := (weapon.bbox.x1 + weapon.bbox.x2) / 2
    let cy := (weapon.bbox.y1 + weapon.bbox.y2) / 2
    if px1e ≤ cx ∧ cx ≤ px2e ∧ py1e ≤ cy ∧ cy ≤ py2e then some weapon.cls
    else
      let ix1 := max person_bbox.x1 weapon.bbox.x1
      let iy1 := max person_bbox.y1 weapon.bbox.y1
      let ix2 := min person_bbox.x2 weapon.bbox.x2
      let iy2 := min person_bbox.y2 weapon.bbox.y2
      if ix1 < ix2 ∧ iy1 < iy2 then some weapon.cls
      else weaponLoop px1e py1e px2e py2e person_bbox rest

/-- `BehaviourEngine._check_weapon_near_person`: expand the person box by
20% on each side and return the class of the first weapon whose center lies
in the expanded box (inclusive) or whose raw box overlaps the person box. -/
def check_weapon_near_person (person_bbox : Box) (weapon_detections : List Detection) :
    Option String :=
  if weapon_detections.isEmpty then none
  else
    let width := person_bbox.x2 - person_bbox.x1
    let height := person_bbox.y2 - person_bbox.y1
    weaponLoop (person_bbox.x1 - width * (2/10)) (person_bbox.y1 - height * (2/10))
      (person_bbox.x2 + width * (2/10)) (person_bbox.y2 + height * (2/10))
      person_bbox weapon_detections

/-- `BehaviourEngine._check_suspicious_item_near_person`: 30% expansion,
center test only (no raw-overlap branch in the source). -/
def check_suspicious_item_near_person (person_bbox : Box)
    (suspicious_items : List Detection) : Option String :=
  if suspicious_items.isEmpty then none
  else
    let width := person_bbox.x2 - person_bbox.x1
    let height := person_bbox.y2 - person_bbox.y1
    let px1e := person_bbox.x1 - width * (3/10)
    let py1e := person_bbox.y1 - height * (3/10)
    let px2e := person_bbox.x2 + width * (3/10)
    let py2e := person_bbox.y2 + height * (3/10)
    (suspicious_items.find? (fun item =>
      decide (px1e ≤ (item.bbox.x1 + item.bbox.x2) / 2 ∧
              (item.bbox.x1 + item.bbox.x2) / 2 ≤ px2e ∧
              py1e ≤ (item.bbox.y1 + item.bbox.y2) / 2 ∧
              (item.bbox.y1 + item.bbox.y2) / 2 ≤ py2e))).map (fun item => item.cls)

/-- `BehaviourEngine._is_at_frame_edge`: any side of the person box within
50 pixels of a frame edge. -/
def is_at_frame_edge (person_bbox : Box) (frame_height frame_width : ℚ) : Bool :=
  decide (person_bbox.x1 < 50 ∨ person_bbox.x2 > frame_width - 50 ∨
          person_bbox.y1 < 50 ∨ person_bbox.y2 > frame_height - 50)

/-- The inline alert-level step function at the end of
`BehaviourEngine.calculate_scores`. -/
def alert_level_of (score : ℕ) : String :=
  if score ≥ 5 then "THREAT"
  else if score ≥ 3 then "SUSPICIOUS"
  else "NORMAL"

/-- Configuration held by a `BehaviourEngine` instance. -/
structure EngineConfig where
  restricted_zone : Option Box
  crowd_threshold : ℤ
deriving DecidableEq

/-- The per-track body of `BehaviourEngine.calculate_scores`, applied after
the track's position history has been updated and pruned for this pass. -/
def scoreTrack (cfg : EngineConfig) (total_persons : ℕ) (current_time : ℚ)
    (person_data : Track) (history : List Sample)
    (weapon_detections suspicious_items : List Detection)
    (frame_height frame_width : ℚ) : ScoreData :=
  let stay_duration := current_time - person_data.first_seen_time
  let s1 : ℕ := if stay_duration > 30 then 1 else 0
  let f1 : List String :=
    if stay_duration > 30 then ["Loitering (" ++ toString stay_duration ++ "s)"] else []
  let zone_hit := is_in_restricted_zone cfg.restricted_zone person_data.last_position
  let s2 : ℕ := if zone_hit then 2 else 0
  let f2 : List String := if zone_hit then ["In restricted zone"] else []
  let s3 : ℕ := if has_low_movement history current_time then 1 else 0
  let f3 : List String :=
    if has_low_movement history current_time then ["Suspicious stillness"] else []
  let s4 : ℕ := if has_rapid_movement history current_time then 1 else 0
  let f4 : List String :=
    if has_rapid_movement history current_time then ["Erratic movement"] else []
  let s5 : ℕ := if total_persons ≥ 2 then 1 else 0
  let f5 : List String :=
    if total_persons ≥ 2 then ["Multiple people (" ++ toString total_persons ++ ")"] else []
  let weapon_near := check_weapon_near_person person_data.bbox weapon_detections
  let s6 : ℕ := match weapon_near with | some _ => 5 | none => 0
  let f6 : List String :=
    match weapon_near with | some c => ["Weapon: " ++ c] | none => []
  let item_near :=
    if suspicious_items.isEmpty then none
    else check_suspicious_item_near_person person_data.bbox suspicious_items
  let s7 : ℕ := match item_near with | some _ => 2 | none => 0
  let f7 : List String :=
    match item_near with | some c => ["Suspicious item: " ++ c] | none => []
  let edge_hit := is_at_frame_edge person_data.bbox frame_height frame_width
  let s8 : ℕ := if edge_hit then 1 else 0
  let f8 : List String := if edge_hit then ["At frame edge"] else []
  let score := s1 + s2 + s3 + s4 + s5 + s6 + s7 + s8
  { score := score
    alert_level := alert_level_of score
    stay_duration := stay_duration
    factors := f1 ++ f2 ++ f3 ++ f4 ++ f5 ++ f6 ++ f7 ++ f8 }

/-- The position-history map of a `BehaviourEngine` instance. -/
abbrev HistoryMap := List (ℕ × List Sample)

/-- Dict assignment `self.position_history[track_id] = h`. -/
def setHistory (hist : HistoryMap) (track_id : ℕ) (h : List Sample) : HistoryMap :=
  if hist.any (fun e => e.1 == track_id) then
    hist.map (fun e => if e.1 == track_id then (e.1, h) else e)
  else hist ++ [(track_id, h)]

/-- One iteration of the main loop of `BehaviourEngine.calculate_scores`:
append the current position to the track's history, prune samples older
than 10 seconds, then score the track. -/
def scoresStep (cfg : EngineConfig) (total_persons : ℕ) (current_time : ℚ)
    (weapon_detections suspicious_items : List Detection)
    (frame_height frame_width : ℚ)
    (acc : HistoryMap × List (ℕ × ScoreData)) (p : ℕ × Track) :
    HistoryMap × List (ℕ × ScoreData) :=
  let h0 := (((acc.1.find? (fun e => e.1 == p.1)).map (fun e => e.2)).getD [])
  let h1 := (h0 ++ [(current_time, p.2.last_position)]).filter
    (fun s => decide (current_time - s.1 ≤ 10))
  (setHistory acc.1 p.1 h1,
   acc.2 ++ [(p.1, scoreTrack cfg total_persons current_time p.2 h1
      weapon_detections suspicious_items frame_height frame_width)])

/-- `BehaviourEngine.calculate_scores`: fold over the tracked persons,
returning the updated position-history map and the per-track score records. -/
def calculate_scores (cfg : EngineConfig) (hist0 : HistoryMap)
    (tracked_persons : List (ℕ × Track)) (weapon_detections : List Detection)
    (frame_height frame_width : ℚ) (suspicious_items : List Detection)
    (current_time : ℚ) : HistoryMap × List (ℕ × ScoreData) :=
  tracked_persons.foldl
    (scoresStep cfg tracked_persons.length current_time weapon_detections
      suspicious_items frame_height frame_width)
    (hist0, [])

/-! ## AlertDecider logic of `working_app.process_video` -/

/-- The per-track THREAT upgrade of `working_app.process_video`: when any
weapon is present in the scene, a non-THREAT level is raised to THREAT and
the score to at least 5. -/
def upgrade_alert_for_weapons (weapon_count : ℕ) (alert_level : String)
    (score : ℕ) : String × ℕ :=
  if weapon_count > 0 ∧ alert_level ≠ "THREAT" then ("THREAT", max score 5)
  else (alert_level, score)

/-- The screenshot decision of `working_app.process_video` (and of
`main.main`): capture exactly when the level is THREAT and the id has not
been captured before, and record the id; otherwise leave the set alone.
The returned Bool says whether a screenshot was written. -/
def screenshot_step (screenshot_captured : List ℕ) (track_id : ℕ)
    (alert_level : String) : Bool × List ℕ :=
  if alert_level == "THREAT" && !(screenshot_captured.contains track_id) then
    (true, screenshot_captured ++ [track_id])
  else (false, screenshot_captured)

/-- The mutable per-session state threaded through the frame loop of
`working_app.process_video` that the screenshot logic touches. -/
structure SessionState where
  tracker_memory : List (ℕ × Track)
  screenshot_captured : List ℕ
deriving DecidableEq

/-- The periodic cleanup call of the frame loop: it invokes only
`TrackerMemory.cleanup`; nothing in the source removes ids from
`screenshot_captured` while the session runs. -/
def session_cleanup (st : SessionState) (current_frame_count timeout : ℤ) :
    SessionState :=
  { st with tracker_memory := cleanup st.tracker_memory current_frame_count timeout }

/-! ## General lemmas about the scoring fold -/

/-- Every record emitted by the scoring fold is a `scoreTrack` result
(or was already in the accumulator). -/
lemma mem_scores_foldl (cfg : EngineConfig) (total_persons : ℕ) (current_time : ℚ)
    (ws items : List Detection) (fh fw : ℚ) :
    ∀ (l : List (ℕ × Track)) (acc : HistoryMap × List (ℕ × ScoreData))
      (q : ℕ × ScoreData),
      q ∈ (l.foldl (scoresStep cfg total_persons current_time ws items fh fw) acc).2 →
      q ∈ acc.2 ∨ ∃ tid tr h1,
        q = (tid, scoreTrack cfg total_persons current_time tr h1 ws items fh fw) := by
  intro l
  induction l with
  | nil => intro acc q hq; exact Or.inl hq
  | cons p rest ih =>
    intro acc q hq
    rcases ih _ q hq with h | h
    · simp only [scoresStep, List.mem_append, List.mem_singleton] at h
      rcases h with h | h
      · exact Or.inl h
      · exact Or.inr ⟨p.1, p.2, _, h⟩
    · exact Or.inr h

/-- The scoring fold emits exactly one record per tracked person, in order. -/
lemma keys_scores_foldl (cfg : EngineConfig) (total_persons : ℕ) (current_time : ℚ)
    (ws items : List Detection) (fh fw : ℚ) :
    ∀ (l : List (ℕ × Track)) (acc : HistoryMap × List (ℕ × ScoreData)),
      (l.foldl (scoresStep cfg total_persons current_time ws items fh fw) acc).2.map
          Prod.fst
        = acc.2.map Prod.fst ++ l.map Prod.fst := by
  intro l
  induction l with
  | nil => intro acc; simp
  | cons p rest ih =>
    intro acc
    rw [List.foldl_cons, ih]
    simp [scoresStep]

/-- C1: in every scoring pass, each track's alert level is the fixed step
function of its total score: `score ≥ 5 → THREAT`, `3 ≤ score < 5 →
SUSPICIOUS`, otherwise `NORMAL`; in particular score 2 gives NORMAL, 3 and 4
give SUSPICIOUS, 5 and 10 give THREAT. -/
theorem alert_level_is_step_function_of_score (cfg : EngineConfig)
    (hist0 : HistoryMap) (tracked_persons : List (ℕ × Track))
    (weapon_detections suspicious_items : List Detection)
    (frame_height frame_width : ℚ) (current_time : ℚ) :
    (∀ q ∈ (calculate_scores cfg hist0 tracked_persons weapon_detections
        frame_height frame_width suspicious_items current_time).2,
      q.2.alert_level = alert_level_of q.2.score)
    ∧ (∀ s : ℕ, 5 ≤ s → alert_level_of s = "THREAT")
    ∧ (∀ s : ℕ, 3 ≤ s → s < 5 → alert_level_of s = "SUSPICIOUS")
    ∧ (∀ s : ℕ, s < 3 → alert_level_of s = "NORMAL")
    ∧ alert_level_of 2 = "NORMAL" ∧ alert_level_of 3 = "SUSPICIOUS"
    ∧ alert_level_of 4 = "SUSPICIOUS" ∧ alert_level_of 5 = "THREAT"
    ∧ alert_level_of 10 = "THREAT" := by
  refine ⟨?_, ?_, ?_, ?_, rfl, rfl, rfl, rfl, rfl⟩
  · intro q hq
    rcases mem_scores_foldl cfg tracked_persons.length current_time
        weapon_detections suspicious_items frame_height frame_width
        tracked_persons (hist0, []) q hq with h | ⟨tid, tr, h1, rfl⟩
    · simp at h
    · rfl
  · intro s hs
    unfold alert_level_of
    rw [if_pos hs]
  · intro s hs hs'
    unfold alert_level_of
    rw [if_neg (by omega), if_pos hs]
  · intro s hs
    unfold alert_level_of
    rw [if_neg (by omega), if_neg (by omega)]

/-- Witness for the alert-level step function, at concrete inputs. -/
theorem alert_level_is_step_function_of_score_witness :
    alert_level_of 2 = "NORMAL" ∧ alert_level_of 7 = "THREAT" :=
  ⟨(alert_level_is_step_function_of_score ⟨none, 5⟩ [] [] [] [] 480 640 0).2.2.2.2.1,
   (alert_level_is_step_function_of_score ⟨none, 5⟩ [] [] [] [] 480 640 0).2.1 7
     (by norm_num)⟩

/-- C2: whenever the deduplicated weapon evidence of a frame is non-empty,
the THREAT upgrade of `working_app.process_video` raises every tracked
person's effective alert level to THREAT, independent of any spatial
association; the scoring pass emits exactly one record per tracked person. -/
theorem any_weapon_escalates_every_track (cfg : EngineConfig)
    (hist0 : HistoryMap) (tracked_persons : List (ℕ × Track))
    (weapon_detections suspicious_items : List Detection)
    (frame_height frame_width : ℚ) (current_time : ℚ)
    (hws : weapon_detections ≠ []) :
    ((calculate_scores cfg hist0 tracked_persons weapon_detections
        frame_height frame_width suspicious_items current_time).2.map Prod.fst
      = tracked_persons.map Prod.fst)
    ∧ ∀ q ∈ (calculate_scores cfg hist0 tracked_persons weapon_detections
        frame_height frame_width suspicious_items current_time).2,
        (upgrade_alert_for_weapons weapon_detections.length
          q.2.alert_level q.2.score).1 = "THREAT" := by
  constructor
  · have h := keys_scores_foldl cfg tracked_persons.length current_time
      weapon_detections suspicious_items frame_height frame_width
      tracked_persons (hist0, [])
    simpa [calculate_scores] using h
  · intro q _
    unfold upgrade_alert_for_weapons
    split_ifs with h
    · rfl
    · push_neg at h
      exact h (by
        have : weapon_detections.length ≠ 0 := fun h0 => hws (List.eq_nil_of_length_eq_zero h0)
        omega)

/-- Witness for the scene-wide escalation theorem at a concrete frame with
one weapon and two tracked persons. -/
theorem any_weapon_escalates_every_track_witness :
    (calculate_scores ⟨none, 5⟩ []
        [(1, ⟨1, 0, (320, 240), ⟨300, 200, 340, 280⟩, 1⟩),
         (2, ⟨2, 0, (100, 100), ⟨90, 80, 110, 120⟩, 1⟩)]
        [⟨⟨0, 0, 10, 10⟩, "gun", 9/10⟩] 1000 1000 [] 0).2.map Prod.fst
      = [1, 2] :=
  (any_weapon_escalates_every_track ⟨none, 5⟩ []
    [(1, ⟨1, 0, (320, 240), ⟨300, 200, 340, 280⟩, 1⟩),
     (2, ⟨2, 0, (100, 100), ⟨90, 80, 110, 120⟩, 1⟩)]
    [⟨⟨0, 0, 10, 10⟩, "gun", 9/10⟩] [] 1000 1000 0 (by simp)).1

/-! ## TrackerMemory: eviction (C5) and update (C9) -/

/-- Deleting a list of ids from an association list keeps exactly the
entries whose key is not among the deleted ids. -/
lemma mem_foldl_erase_ids (ids : List ℕ) :
    ∀ (m : List (ℕ × Track)) (e : ℕ × Track),
      e ∈ ids.foldl (fun m tid => m.filter (fun x => x.1 != tid)) m ↔
        e ∈ m ∧ e.1 ∉ ids := by
  induction ids with
  | nil => intro m e; simp
  | cons i rest ih =>
    intro m e
    rw [List.foldl_cons, ih]
    simp only [List.mem_filter, bne_iff_ne, ne_eq, List.mem_cons]
    constructor
    · rintro ⟨⟨hm, hne⟩, hrest⟩
      exact ⟨hm, by rintro (h | h) <;> [exact hne h; exact hrest h]⟩
    · rintro ⟨hm, hni⟩
      exact ⟨⟨hm, fun h => hni (Or.inl h)⟩, fun h => hni (Or.inr h)⟩

/-- The concrete track of the spec's eviction boundary example:
last seen at frame 10. -/
def trackSeen10 : Track :=
  { track_id := 1
    first_seen_time := 0
    last_position := (5, 5)
    bbox := ⟨0, 0, 10, 10⟩
    last_seen_frame := 10 }

/-- C5: `TrackerMemory.cleanup` keeps exactly the entries with
`current_frame - last_seen_frame ≤ timeout` (strict `>` removes); with
timeout 90 a track last seen at frame 10 is removed at frame 101 and
retained at frame 100. -/
theorem evict_removes_exactly_stale (memory : List (ℕ × Track))
    (current_frame_count timeout : ℤ)
    (hkeys : (memory.map Prod.fst).Nodup) :
    (∀ e : ℕ × Track,
      e ∈ cleanup memory current_frame_count timeout ↔
        e ∈ memory ∧ current_frame_count - e.2.last_seen_frame ≤ timeout)
    ∧ cleanup [(1, trackSeen10)] 101 90 = []
    ∧ cleanup [(1, trackSeen10)] 100 90 = [(1, trackSeen10)] := by
  refine ⟨?_, by decide, by decide⟩
  intro e
  unfold cleanup
  rw [mem_foldl_erase_ids]
  constructor
  · rintro ⟨hm, hni⟩
    refine ⟨hm, ?_⟩
    by_contra hstale
    push_neg at hstale
    exact hni (List.mem_map.2 ⟨e, List.mem_filter.2 ⟨hm, by simpa using hstale⟩, rfl⟩)
  · rintro ⟨hm, hfresh⟩
    refine ⟨hm, fun hni => ?_⟩
    rcases List.mem_map.1 hni with ⟨e', he', hkey⟩
    rcases List.mem_filter.1 he' with ⟨hm', hstale⟩
    have : e' = e := List.inj_on_of_nodup_map hkeys hm' hm hkey
    subst this
    simp only [decide_eq_true_eq] at hstale
    omega

/-- Witness for the eviction theorem: on a concrete two-track store,
exactly the stale entry disappears. -/
theorem evict_removes_exactly_stale_witness :
    ((1, trackSeen10) ∈ cleanup [(1, trackSeen10)] 100 90 ↔
      (1, trackSeen10) ∈ [(1, trackSeen10)] ∧ (100 : ℤ) - 10 ≤ 90) :=
  (evict_removes_exactly_stale [(1, trackSeen10)] 100 90 (by decide)).1
    (1, trackSeen10)

/-- `getTrack` after the in-place field update of an existing entry. -/
lemma getTrack_map_update (tid : ℕ) (pos : ℚ × ℚ) (b : Box) (frame : ℤ) :
    ∀ memory : List (ℕ × Track),
      getTrack
        (memory.map (fun e =>
          if e.1 == tid then
            (e.1, { e.2 with last_position := pos, bbox := b,
                             last_seen_frame := frame })
          else e)) tid
      = (getTrack memory tid).map
          (fun tr => { tr with last_position := pos, bbox := b,
                               last_seen_frame := frame }) := by
  intro memory
  induction memory with
  | nil => rfl
  | cons e rest ih =>
    by_cases he : e.1 = tid
    · simp [getTrack, List.find?_cons, he]
    · simpa [getTrack, List.find?_cons, he] using ih

/-- `TrackerMemory.update` on one detection: a fresh id gets a new entry
stamped `first_seen_time = now`; an existing id keeps its entry and only
`last_position`, `bbox`, `last_seen_frame` are overwritten. -/
lemma getTrack_updateOne (now : ℚ) (frame : ℤ) (memory : List (ℕ × Track))
    (d : PersonDetection) :
    getTrack (updateOne now frame memory d) d.track_id
      = some (match getTrack memory d.track_id with
          | some tr => { tr with last_position := centerOf d.bbox,
                                 bbox := d.bbox, last_seen_frame := frame }
          | none =>
            { track_id := d.track_id
              first_seen_time := now
              last_position := centerOf d.bbox
              bbox := d.bbox
              last_seen_frame := frame }) := by
  unfold updateOne
  by_cases hany : memory.any (fun e => e.1 == d.track_id)
  · rw [if_pos hany, getTrack_map_update]
    rcases hfind : getTrack memory d.track_id with _ | tr
    · exfalso
      have hnone : memory.find? (fun e => e.1 == d.track_id) = none := by
        unfold getTrack at hfind
        rcases h : memory.find? (fun e => e.1 == d.track_id) with _ | e'
        · exact h
        · rw [h] at hfind; simp at hfind
      rcases List.any_eq_true.1 hany with ⟨e, he, hkey⟩
      exact absurd (List.find?_eq_none.1 hnone e he) (by simpa using hkey)
    · rfl
  · rw [if_neg hany]
    have hnone : memory.find? (fun e => e.1 == d.track_id) = none :=
      List.find?_eq_none.2 fun e he =>
        (List.any_eq_false.1 (Bool.of_not_eq_true hany)) e he
    unfold getTrack
    rw [List.find?_append, hnone]
    simp [hnone]

/-- C9: updating an already-present identity leaves `first_seen_time`
untouched while overwriting position, bbox and `last_seen_frame`; two
consecutive updates with the same identity keep `first_seen_time` and end
with `last_seen_frame` equal to the latest frame number. -/
theorem update_keeps_first_seen_time (memory : List (ℕ × Track))
    (d : PersonDetection) (now1 now2 : ℚ) (frame1 frame2 : ℤ) :
    (∀ tr, getTrack memory d.track_id = some tr →
      getTrack (updateMemory now1 frame1 memory [d]) d.track_id
        = some { tr with last_position := centerOf d.bbox, bbox := d.bbox,
                         last_seen_frame := frame1 })
    ∧ ((getTrack (updateMemory now2 frame2
            (updateMemory now1 frame1 memory [d]) [d]) d.track_id).map
          Track.first_seen_time
        = (getTrack (updateMemory now1 frame1 memory [d]) d.track_id).map
            Track.first_seen_time)
    ∧ ((getTrack (updateMemory now2 frame2
            (updateMemory now1 frame1 memory [d]) [d]) d.track_id).map
          Track.last_seen_frame = some frame2) := by
  have h1 := getTrack_updateOne now1 frame1 memory d
  have h2 := getTrack_updateOne now2 frame2 (updateOne now1 frame1 memory d) d
  simp only [updateMemory, List.foldl_cons, List.foldl_nil]
  refine ⟨?_, ?_, ?_⟩
  · intro tr htr
    rw [h1, htr]
  · rw [h2, h1]
    rcases getTrack memory d.track_id with _ | tr <;> rfl
  · rw [h2, h1]
    rcases getTrack memory d.track_id with _ | tr <;> rfl

/-- Witness for the tracker-update theorem at a concrete store. -/
theorem update_keeps_first_seen_time_witness :
    getTrack (updateMemory 5 3 [(7, ⟨7, 1, (2, 2), ⟨0, 0, 4, 4⟩, 1⟩)]
        [⟨7, ⟨2, 2, 6, 6⟩, 1⟩]) 7
      = some { track_id := 7, first_seen_time := 1,
               last_position := centerOf ⟨2, 2, 6, 6⟩,
               bbox := ⟨2, 2, 6, 6⟩, last_seen_frame := 3 } :=
  (update_keeps_first_seen_time [(7, ⟨7, 1, (2, 2), ⟨0, 0, 4, 4⟩, 1⟩)]
    ⟨7, ⟨2, 2, 6, 6⟩, 1⟩ 5 9 3 4).1 ⟨7, 1, (2, 2), ⟨0, 0, 4, 4⟩, 1⟩ rfl

/-! ## Screenshot capture (C6) -/

/-- A concrete person detection used in the screenshot scenario. -/
def personDet1 : PersonDetection := ⟨1, ⟨100, 100, 200, 300⟩, 9/10⟩

/-- Counterexample to the claim that evidence capture is suppressed only
"until the track is evicted and re-created": in the code the
`screenshot_captured` set survives eviction, so after track 1 fires a
capture, is evicted at frame 101 and is re-created at frame 102, a new
THREAT frame for track 1 still does NOT fire a capture. -/
theorem screenshot_not_rearmed_by_eviction :
    (screenshot_step [] 1 "THREAT").1 = true
    ∧ (session_cleanup
        { tracker_memory := updateMemory 0 1 [] [personDet1]
          screenshot_captured := (screenshot_step [] 1 "THREAT").2 }
        101 90).tracker_memory = []
    ∧ (getTrack
        (updateMemory 102 102
          (session_cleanup
            { tracker_memory := updateMemory 0 1 [] [personDet1]
              screenshot_captured := (screenshot_step [] 1 "THREAT").2 }
            101 90).tracker_memory [personDet1]) 1).isSome = true
    ∧ (screenshot_step
        (session_cleanup
          { tracker_memory := updateMemory 0 1 [] [personDet1]
            screenshot_captured := (screenshot_step [] 1 "THREAT").2 }
          101 90).screenshot_captured 1 "THREAT").1 = false := by
  refine ⟨rfl, ?_, ?_, rfl⟩ <;> rfl

/-- C6 (amended): a capture fires exactly on a THREAT frame for an id not
yet in `screenshot_captured`; the captured set only grows, a second THREAT
frame for the same id never re-fires within the session, and the periodic
cleanup call leaves the captured set untouched (it is reset only when the
session restarts). -/
theorem screenshot_once_per_session (captured : List ℕ) (track_id tid2 : ℕ)
    (alert_level lvl2 : String) (st : SessionState)
    (current_frame_count timeout : ℤ) :
    ((screenshot_step captured track_id alert_level).1 = true ↔
        alert_level = "THREAT" ∧ track_id ∉ captured)
    ∧ (∀ x ∈ captured, x ∈ (screenshot_step captured tid2 lvl2).2)
    ∧ (screenshot_step ((screenshot_step captured track_id "THREAT").2)
        track_id lvl2).1 = false
    ∧ (session_cleanup st current_frame_count timeout).screenshot_captured
        = st.screenshot_captured := by
  refine ⟨?_, ?_, ?_, rfl⟩
  · by_cases hmem : track_id ∈ captured <;>
      by_cases halert : alert_level = "THREAT" <;>
        simp [screenshot_step, List.elem_iff, hmem, halert]
  · intro x hx
    unfold screenshot_step
    split_ifs with h
    · exact List.mem_append_left _ hx
    · exact hx
  · by_cases hmem : track_id ∈ captured <;>
      simp [screenshot_step, List.elem_iff, hmem]

/-- Witness for the amended screenshot theorem: a first THREAT frame fires,
an immediately following THREAT frame for the same id does not. -/
theorem screenshot_once_per_session_witness :
    (screenshot_step ((screenshot_step [] 1 "THREAT").2) 1 "THREAT").1 = false :=
  (screenshot_once_per_session [] 1 1 "THREAT" "THREAT" ⟨[], []⟩ 0 0).2.2.1

/-! ## Crowd factor (C8) -/

/-- A benign concrete track used in crowd scenarios: far from the frame
edge, just created, no history, no weapons or items around. -/
def crowdTrackA : Track := ⟨1, 0, (320, 240), ⟨300, 200, 340, 280⟩, 1⟩

/-- A second benign concrete track. -/
def crowdTrackB : Track := ⟨2, 0, (100, 100), ⟨90, 80, 110, 120⟩, 1⟩

/-- Counterexample to the claim that the crowd factor compares against the
configured `crowd_threshold`: with the threshold set to 5 and only 2 tracks
present, `calculate_scores` still awards the crowd point to both tracks. -/
theorem crowd_fires_below_configured_threshold :
    (((⟨none, 5⟩ : EngineConfig)).crowd_threshold = 5)
    ∧ ([(1, crowdTrackA), (2, crowdTrackB)].length = 2)
    ∧ ((calculate_scores ⟨none, 5⟩ [] [(1, crowdTrackA), (2, crowdTrackB)]
          [] 1000 1000 [] 0).2.map (fun q => q.2.score) = [1, 1])
    ∧ ((calculate_scores ⟨none, 5⟩ [] [(1, crowdTrackA), (2, crowdTrackB)]
          [] 1000 1000 [] 0).2.map (fun q => q.2.factors)
        = [["Multiple people (2)"], ["Multiple people (2)"]]) := by
  refine ⟨rfl, rfl, ?_, ?_⟩ <;>
    (norm_num [calculate_scores, scoresStep, scoreTrack, setHistory,
      crowdTrackA, crowdTrackB, has_low_movement, has_rapid_movement,
      is_in_restricted_zone, check_weapon_near_person,
      check_suspicious_item_near_person, is_at_frame_edge, alert_level_of,
      distSq, List.find?_cons, List.filter] <;> decide)

/-- C8 (amended): the crowd factor is independent of the configured
`crowd_threshold` (the stored parameter is never read by the scoring pass);
it adds exactly +1 whenever the total active track count is at least 2, the
factor string naming the count. -/
theorem crowd_factor_fires_at_two (z : Option Box) (t t' : ℤ)
    (total_persons : ℕ) (current_time : ℚ) (tr : Track)
    (history : List Sample) (ws items : List Detection) (fh fw : ℚ) :
    (scoreTrack ⟨z, t⟩ total_persons current_time tr history ws items fh fw
      = scoreTrack ⟨z, t'⟩ total_persons current_time tr history ws items fh fw)
    ∧ ((scoreTrack ⟨z, t⟩ total_persons current_time tr history ws items fh fw).score
        = (scoreTrack ⟨z, t⟩ 0 current_time tr history ws items fh fw).score
          + (if 2 ≤ total_persons then 1 else 0))
    ∧ (2 ≤ total_persons →
        ("Multiple people (" ++ toString total_persons ++ ")")
          ∈ (scoreTrack ⟨z, t⟩ total_persons current_time tr history ws items
              fh fw).factors) := by
  refine ⟨rfl, ?_, ?_⟩
  · by_cases h : 2 ≤ total_persons <;>
      simp [scoreTrack, h, Nat.add_right_comm]
  · intro h
    simp [scoreTrack, h]

/-- Witness for the amended crowd theorem: with 3 people the crowd factor
string appears in the factors of a concrete track. -/
theorem crowd_factor_fires_at_two_witness :
    ("Multiple people (" ++ toString 3 ++ ")")
      ∈ (scoreTrack ⟨none, 5⟩ 3 0 crowdTrackA [] [] [] 1000 1000).factors :=
  (crowd_factor_fires_at_two none 5 7 3 0 crowdTrackA [] [] [] 1000 1000).2.2
    (by norm_num)

/-! ## Stillness factor (C7) -/

/-- Modelled from the spec: the stillness test as the spec words it, taking
the MOST RECENT sample at least 5 seconds older than `now` (the last
qualifying sample of the chronologically stored history) and comparing it
to the current position.  Kept separate from `has_low_movement`, which
embeds the source loop, so the two can be compared. -/
def stillness_spec (history : List Sample) (current_time : ℚ) : Bool :=
  if history.length < 2 then false
  else
    match (history.filter (fun s => decide (current_time - s.1 ≥ 5))).getLast? with
    | none => false
    | some s =>
      match history.getLast? with
      | none => false
      | some cur => decide (distSq s.2 cur.2 < 400)

/-- The concrete history refuting the "most recent qualifying sample"
reading: samples at t=0 (far away), t=4 (at the current spot), t=10. -/
def stillHist : List Sample := [(0, (0, 0)), (4, (100, 0)), (10, (100, 0))]

/-- Counterexample: at time 10 over `stillHist` the spec's "most recent
sample at least 5s old" (t=4, distance 0) would fire the stillness factor,
but the source's loop takes the FIRST qualifying sample (t=0, distance 100)
and does not fire. -/
theorem stillness_most_recent_reading_fails :
    has_low_movement stillHist 10 = false ∧ stillness_spec stillHist 10 = true := by
  constructor <;>
    norm_num [has_low_movement, stillness_spec, stillHist, distSq,
      List.find?_cons, List.filter]

/-- `find?` returns the first match: the list splits at the found element,
everything before it failing the test. -/
lemma find?_split {α : Type _} {p : α → Bool} :
    ∀ {l : List α} {a : α}, l.find? p = some a →
      ∃ l1 l2, l = l1 ++ a :: l2 ∧ ∀ x ∈ l1, p x = false := by
  intro l
  induction l with
  | nil => intro a h; cases h
  | cons b rest ih =>
    intro a h
    by_cases hb : p b
    · rw [List.find?_cons_of_pos _ hb] at h
      cases h
      exact ⟨[], rest, rfl, by simp⟩
    · rw [List.find?_cons_of_neg _ hb] at h
      rcases ih h with ⟨l1, l2, hsplit, hl1⟩
      refine ⟨b :: l1, l2, by rw [hsplit]; rfl, ?_⟩
      intro x hx
      rcases List.mem_cons.1 hx with rfl | hx
      · exact Bool.eq_false_iff.2 hb
      · exact hl1 x hx

/-- C7 (amended): over a chronologically ordered history, the stillness
factor fires iff the history has at least two samples and the OLDEST sample
at least 5 seconds older than `now` — the first qualifying sample in stored
order, with the minimal timestamp among qualifying samples — lies within
distance 20 (squared: 400) of the last stored position. -/
theorem stillness_uses_oldest_qualifying_sample (history : List Sample)
    (current_time : ℚ)
    (hsorted : List.Pairwise (fun a b : Sample => a.1 < b.1) history) :
    has_low_movement history current_time = true ↔
      2 ≤ history.length ∧
      ∃ s ∈ history, 5 ≤ current_time - s.1 ∧
        (∀ s' ∈ history, 5 ≤ current_time - s'.1 → s.1 ≤ s'.1) ∧
        ∃ cur, history.getLast? = some cur ∧ distSq s.2 cur.2 < 400 := by
  unfold has_low_movement
  by_cases hlen : history.length < 2
  · rw [if_pos hlen]
    simp only [Bool.false_eq_true, false_iff]
    rintro ⟨h2, -⟩
    omega
  · rw [if_neg hlen]
    have hlen' : 2 ≤ history.length := by omega
    have hne : history ≠ [] := by
      intro h
      rw [h] at hlen'
      simp at hlen'
    rcases hlast : history.getLast? with _ | cur
    · exact absurd (List.getLast?_eq_none_iff.1 hlast) hne
    · rcases hfind : history.find? (fun s => decide (current_time - s.1 ≥ 5))
        with _ | s
      · rw [hfind]
        simp only [Bool.false_eq_true, false_iff]
        rintro ⟨-, s, hs_mem, hs_q, -⟩
        exact absurd (by simpa using List.find?_eq_none.1 hfind s hs_mem) (by simpa using hs_q)
      · rw [hfind]
        have hs_mem := List.mem_of_find?_eq_some hfind
        have hs_q : 5 ≤ current_time - s.1 := by
          simpa using List.find?_some hfind
        rcases find?_split hfind with ⟨l1, l2, hsplit, hl1⟩
        have hmin : ∀ s' ∈ history, 5 ≤ current_time - s'.1 → s.1 ≤ s'.1 := by
          intro s' hs' hq'
          rw [hsplit] at hs'
          rcases List.mem_append.1 hs' with h1 | h2
          · exact absurd (by simpa using hl1 s' h1) (by simpa using hq')
          · rcases List.mem_cons.1 h2 with rfl | h2
            · exact le_refl _
            · have := (List.pairwise_append.1 (hsplit ▸ hsorted)).2.1
              exact le_of_lt ((List.pairwise_cons.1 this).1 s' h2)
        constructor
        · intro hdist
          exact ⟨hlen', s, hs_mem, hs_q, hmin,
            cur, rfl, by simpa using hdist⟩
        · rintro ⟨-, s', hs'_mem, hs'_q, hmin', cur', hcur', hdist'⟩
          have hkeys : (history.map Prod.fst).Nodup :=
            List.pairwise_map.2 (hsorted.imp fun hab => ne_of_lt hab)
          have hss : s = s' := by
            have h1 : s.1 ≤ s'.1 := hmin s' hs'_mem hs'_q
            have h2 : s'.1 ≤ s.1 := hmin' s hs_mem hs_q
            exact List.inj_on_of_nodup_map hkeys hs_mem hs'_mem (le_antisymm h1 h2)
          have hcc : cur = cur' := by injection hcur'
          rw [hss, hcc]
          simpa using hdist'

/-- Witness for the amended stillness theorem: two samples 10 and 4 seconds
old, the qualifying one 3 pixels from the current spot, fire the factor. -/
theorem stillness_uses_oldest_qualifying_sample_witness :
    has_low_movement [((0 : ℚ), ((0 : ℚ), (0 : ℚ))), (6, (3, 0))] 10 = true := by
  refine (stillness_uses_oldest_qualifying_sample
      [((0 : ℚ), ((0 : ℚ), (0 : ℚ))), (6, (3, 0))] 10 ?_).2
    ⟨by norm_num, (0, (0, 0)), by simp, by norm_num, ?_, (6, (3, 0)), rfl, ?_⟩
  · refine List.Pairwise.cons ?_ (List.Pairwise.cons (by simp) List.Pairwise.nil)
    intro b hb
    rcases List.mem_singleton.1 hb with rfl
    norm_num
  · intro s' hs' _
    rcases List.mem_cons.1 hs' with rfl | hs'
    · norm_num
    · rcases List.mem_singleton.1 hs' with rfl
      norm_num
  · norm_num [distSq]

/-! ## Weapon proximity factor (C3) -/

/-- The spec-level association test: the weapon's center lies inside the
person box expanded by 20% on each side (boundary inclusive), or the raw
boxes have a positive-area intersection. -/
def weaponAssociated (person_bbox : Box) (w : Detection) : Bool :=
  let width := person_bbox.x2 - person_bbox.x1
  let height := person_bbox.y2 - person_bbox.y1
  let cx := (w.bbox.x1 + w.bbox.x2) / 2
  let cy := (w.bbox.y1 + w.bbox.y2) / 2
  decide (((person_bbox.x1 - width * (2/10) ≤ cx ∧
            cx ≤ person_bbox.x2 + width * (2/10)) ∧
           (person_bbox.y1 - height * (2/10) ≤ cy ∧
            cy ≤ person_bbox.y2 + height * (2/10)))
        ∨ (max person_bbox.x1 w.bbox.x1 < min person_bbox.x2 w.bbox.x2 ∧
           max person_bbox.y1 w.bbox.y1 < min person_bbox.y2 w.bbox.y2))

/-- The weapon loop returns the class of the first weapon, in input order,
that passes the association test. -/
lemma weaponLoop_eq_find (person_bbox : Box) :
    ∀ ws : List Detection,
      weaponLoop (person_bbox.x1 - (person_bbox.x2 - person_bbox.x1) * (2/10))
          (person_bbox.y1 - (person_bbox.y2 - person_bbox.y1) * (2/10))
          (person_bbox.x2 + (person_bbox.x2 - person_bbox.x1) * (2/10))
          (person_bbox.y2 + (person_bbox.y2 - person_bbox.y1) * (2/10))
          person_bbox ws
        = (ws.find? (weaponAssociated person_bbox)).map Detection.cls := by
  intro ws
  induction ws with
  | nil => rfl
  | cons w rest ih =>
    by_cases hc : (person_bbox.x1 - (person_bbox.x2 - person_bbox.x1) * (2/10)
          ≤ (w.bbox.x1 + w.bbox.x2) / 2 ∧
        (w.bbox.x1 + w.bbox.x2) / 2
          ≤ person_bbox.x2 + (person_bbox.x2 - person_bbox.x1) * (2/10) ∧
        person_bbox.y1 - (person_bbox.y2 - person_bbox.y1) * (2/10)
          ≤ (w.bbox.y1 + w.bbox.y2) / 2 ∧
        (w.bbox.y1 + w.bbox.y2) / 2
          ≤ person_bbox.y2 + (person_bbox.y2 - person_bbox.y1) * (2/10))
    · rw [List.find?_cons_of_pos _ (by
        unfold weaponAssociated
        simp only [decide_eq_true_eq]
        exact Or.inl ⟨⟨hc.1, hc.2.1⟩, ⟨hc.2.2.1, hc.2.2.2⟩⟩)]
      unfold weaponLoop
      rw [if_pos hc]
      rfl
    · by_cases hov : (max person_bbox.x1 w.bbox.x1 < min person_bbox.x2 w.bbox.x2 ∧
          max person_bbox.y1 w.bbox.y1 < min person_bbox.y2 w.bbox.y2)
      · rw [List.find?_cons_of_pos _ (by
          unfold weaponAssociated
          simp only [decide_eq_true_eq]
          exact Or.inr hov)]
        unfold weaponLoop
        rw [if_neg hc, if_pos hov]
        rfl
      · rw [List.find?_cons_of_neg _ (by
          unfold weaponAssociated
          simp only [decide_eq_true_eq, not_or]
          exact ⟨fun h => hc ⟨h.1.1, h.1.2, h.2.1, h.2.2⟩, hov⟩)]
        unfold weaponLoop
        rw [if_neg hc, if_neg hov]
        exact ih

/-- `_check_weapon_near_person` as a whole equals the first-match search
under the association test. -/
lemma check_weapon_eq_find (person_bbox : Box) (ws : List Detection) :
    check_weapon_near_person person_bbox ws
      = (ws.find? (weaponAssociated person_bbox)).map Detection.cls := by
  rcases ws with _ | ⟨w, rest⟩
  · rfl
  · unfold check_weapon_near_person
    rw [if_neg (by simp)]
    exact weaponLoop_eq_find person_bbox (w :: rest)

/-- C3: the weapon-proximity factor contributes exactly +5 iff some weapon
is associated to the track (center inside the 20%-expanded box, boundary
inclusive, or raw boxes overlapping), and the factor's class name comes
from the first associated weapon in input order. -/
theorem weapon_proximity_first_match_plus_five (cfg : EngineConfig)
    (total_persons : ℕ) (current_time : ℚ) (tr : Track)
    (history : List Sample) (ws items : List Detection) (fh fw : ℚ) :
    (check_weapon_near_person tr.bbox ws
      = (ws.find? (weaponAssociated tr.bbox)).map Detection.cls)
    ∧ ((scoreTrack cfg total_persons current_time tr history ws items fh fw).score
        = (scoreTrack cfg total_persons current_time tr history [] items fh fw).score
          + (if ws.any (weaponAssociated tr.bbox) then 5 else 0)) := by
  refine ⟨check_weapon_eq_find tr.bbox ws, ?_⟩
  have hempty : check_weapon_near_person tr.bbox [] = none := rfl
  rcases hfind : ws.find? (weaponAssociated tr.bbox) with _ | w
  · have hany : ws.any (weaponAssociated tr.bbox) = false :=
      List.any_eq_false.2 fun x hx => by
        simpa using List.find?_eq_none.1 hfind x hx
    simp [scoreTrack, check_weapon_eq_find, hfind, hany, hempty]
  · have hany : ws.any (weaponAssociated tr.bbox) = true :=
      List.any_eq_true.2 ⟨w, List.mem_of_find?_eq_some hfind,
        List.find?_some hfind⟩
    simp [scoreTrack, check_weapon_eq_find, hfind, hany, hempty]
    omega

/-- Witness for the weapon-proximity theorem: a weapon whose center (12, 5)
lies exactly on the boundary of the 20%-expanded person box [-2,12]×[-2,12]
is associated and names the factor. -/
theorem weapon_proximity_first_match_plus_five_witness :
    check_weapon_near_person ⟨0, 0, 10, 10⟩ [⟨⟨11, 4, 13, 6⟩, "knife", 1⟩]
      = some "knife" := by
  have h := (weapon_proximity_first_match_plus_five ⟨none, 5⟩ 1 0
    ⟨1, 0, (5, 5), ⟨0, 0, 10, 10⟩, 1⟩ [] [⟨⟨11, 4, 13, 6⟩, "knife", 1⟩] [] 480 640).1
  rw [h]
  norm_num [weaponAssociated, List.find?_cons]

/-! ## NMS lemmas (C4, C10) -/

/-- IoU is symmetric in its two boxes. -/
lemma calculate_iou_comm (b1 b2 : Box) :
    calculate_iou b1 b2 = calculate_iou b2 b1 := by
  simp only [calculate_iou]
  rw [max_comm b2.x1 b1.x1, max_comm b2.y1 b1.y1,
    min_comm b2.x2 b1.x2, min_comm b2.y2 b1.y2,
    add_comm ((b2.x2 - b2.x1) * (b2.y2 - b2.y1))
      ((b1.x2 - b1.x1) * (b1.y2 - b1.y1))]

/-- The keep-loop never returns more detections than it has seen. -/
lemma nmsLoop_length (isDup : Detection → Detection → Bool) :
    ∀ (l keep : List Detection),
      (nmsLoop isDup keep l).length ≤ keep.length + l.length := by
  intro l
  induction l with
  | nil => intro keep; simp [nmsLoop]
  | cons d rest ih =>
    intro keep
    unfold nmsLoop
    split_ifs with h
    · have := ih keep
      simp only [List.length_cons]
      omega
    · have h2 := ih (keep ++ [d])
      have h3 : (keep ++ [d]).length = keep.length + 1 := by simp
      rw [h3] at h2
      simp only [List.length_cons]
      omega

/-- Everything the keep-loop returns was already kept or came from input. -/
lemma nmsLoop_mem (isDup : Detection → Detection → Bool) :
    ∀ (l keep : List Detection) (x : Detection),
      x ∈ nmsLoop isDup keep l → x ∈ keep ∨ x ∈ l := by
  intro l
  induction l with
  | nil => intro keep x hx; exact Or.inl hx
  | cons d rest ih =>
    intro keep x hx
    unfold nmsLoop at hx
    split_ifs at hx with h
    · rcases ih keep x hx with h1 | h1
      · exact Or.inl h1
      · exact Or.inr (List.mem_cons_of_mem _ h1)
    · rcases ih (keep ++ [d]) x hx with h1 | h1
      · rcases List.mem_append.1 h1 with h2 | h2
        · exact Or.inl h2
        · exact Or.inr (List.mem_cons.2 (Or.inl (List.mem_singleton.1 h2)))
      · exact Or.inr (List.mem_cons_of_mem _ h1)

/-- The keep-loop preserves pairwise non-duplication: every later kept
detection fails the duplicate test against every earlier kept one. -/
lemma nmsLoop_pairwise (isDup : Detection → Detection → Bool) :
    ∀ (l keep : List Detection),
      List.Pairwise (fun a b => isDup b a = false) keep →
      List.Pairwise (fun a b => isDup b a = false) (nmsLoop isDup keep l) := by
  intro l
  induction l with
  | nil => intro keep h; exact h
  | cons d rest ih =>
    intro keep hkeep
    unfold nmsLoop
    split_ifs with h
    · exact ih keep hkeep
    · refine ih (keep ++ [d]) ?_
      rw [List.pairwise_append]
      refine ⟨hkeep, List.pairwise_singleton _ _, ?_⟩
      intro a ha b hb
      rw [List.mem_singleton.1 hb]
      exact Bool.eq_false_iff.2 (List.any_eq_false.1 (Bool.eq_false_iff.2 h) a ha)

/-- The keep-loop never changes the head once one exists. -/
lemma nmsLoop_head? (isDup : Detection → Detection → Bool) :
    ∀ (l keep : List Detection), keep ≠ [] →
      (nmsLoop isDup keep l).head? = keep.head? := by
  intro l
  induction l with
  | nil => intro keep _; rfl
  | cons d rest ih =>
    intro keep hne
    unfold nmsLoop
    split_ifs with h
    · exact ih keep hne
    · rw [ih (keep ++ [d]) (by simp), List.head?_append]
      rcases keep with _ | ⟨a, ks⟩
      · exact absurd rfl hne
      · rfl

/-- The confidence-descending sort is a permutation with a
maximal-confidence head. -/
lemma sortByConfidenceDesc_spec (dets : List Detection) (h : dets ≠ []) :
    ∃ d0 rest, sortByConfidenceDesc dets = d0 :: rest
      ∧ d0 ∈ dets ∧ (∀ d ∈ dets, d.confidence ≤ d0.confidence)
      ∧ (∀ x ∈ sortByConfidenceDesc dets, x ∈ dets) := by
  have hperm := List.mergeSort_perm dets
    (fun a b => decide (b.confidence ≤ a.confidence))
  have htrans : ∀ a b c : Detection,
      decide (b.confidence ≤ a.confidence) = true →
      decide (c.confidence ≤ b.confidence) = true →
      decide (c.confidence ≤ a.confidence) = true := by
    intro a b c hab hbc
    simp only [decide_eq_true_eq] at hab hbc ⊢
    exact le_trans hbc hab
  have htotal : ∀ a b : Detection,
      (decide (b.confidence ≤ a.confidence)
        || decide (a.confidence ≤ b.confidence)) = true := by
    intro a b
    simpa using le_total b.confidence a.confidence
  have hsorted := List.sorted_mergeSort htrans htotal dets
  rcases hs : sortByConfidenceDesc dets with _ | ⟨d0, rest⟩
  · exfalso
    apply h
    have := hperm.length_eq
    rw [show dets.mergeSort (fun a b => decide (b.confidence ≤ a.confidence))
        = sortByConfidenceDesc dets from rfl, hs] at this
    exact List.eq_nil_of_length_eq_zero this.symm
  · rw [show dets.mergeSort (fun a b => decide (b.confidence ≤ a.confidence))
        = sortByConfidenceDesc dets from rfl, hs] at hsorted hperm
    refine ⟨d0, rest, rfl, hperm.mem_iff.1 (by simp), ?_, ?_⟩
    · intro d hd
      rcases List.mem_cons.1 (hperm.mem_iff.2 hd) with rfl | hd'
      · exact le_refl _
      · simpa using (List.pairwise_cons.1 hsorted).1 d hd'
    · intro x hx
      exact hperm.mem_iff.1 hx

/-- The keep-loop applied to a nonempty sorted list keeps its head and
returns a sublist of the input. -/
lemma nms_head_max (isDup : Detection → Detection → Bool)
    (dets : List Detection) (h : dets ≠ []) :
    (∃ d0, (nmsLoop isDup [] (sortByConfidenceDesc dets)).head? = some d0
        ∧ d0 ∈ dets ∧ ∀ d ∈ dets, d.confidence ≤ d0.confidence)
    ∧ ∀ x ∈ nmsLoop isDup [] (sortByConfidenceDesc dets), x ∈ dets := by
  rcases sortByConfidenceDesc_spec dets h with ⟨d0, rest, hs, hd0, hmax, hsub⟩
  constructor
  · refine ⟨d0, ?_, hd0, hmax⟩
    rw [hs]
    show (nmsLoop isDup [] (d0 :: rest)).head? = some d0
    unfold nmsLoop
    rw [if_neg (by simp)]
    rw [nmsLoop_head? isDup rest ([] ++ [d0]) (by simp)]
    rfl
  · intro x hx
    rcases nmsLoop_mem isDup _ [] x hx with h1 | h1
    · simp at h1
    · exact hsub x h1

/-- Pairwise separation of the loop output for an arbitrary site. -/
lemma nms_pairwise_out (isDup : Detection → Detection → Bool)
    (dets : List Detection) :
    List.Pairwise (fun a b => isDup b a = false)
      (nmsLoop isDup [] (sortByConfidenceDesc dets)) :=
  nmsLoop_pairwise isDup _ [] (List.Pairwise.nil)

/-- Output length of the loop is bounded by the input length. -/
lemma nms_length_out (isDup : Detection → Detection → Bool)
    (dets : List Detection) :
    (nmsLoop isDup [] (sortByConfidenceDesc dets)).length ≤ dets.length := by
  have h := nmsLoop_length isDup (sortByConfidenceDesc dets) []
  have hlen : (sortByConfidenceDesc dets).length = dets.length :=
    (List.mergeSort_perm dets _).length_eq
  simpa [hlen] using h

/-- C4: each of the three deduplication routines returns at most as many
detections as it received, and no two kept detections exceed the site's
IoU threshold under the site's class-match policy. -/
theorem dedupe_no_overlapping_pairs (dets : List Detection) (thr : ℚ) :
    ((apply_nms dets thr).length ≤ dets.length
      ∧ List.Pairwise (fun a b => a.cls = b.cls →
          calculate_iou a.bbox b.bbox ≤ thr) (apply_nms dets thr))
    ∧ ((apply_person_nms dets thr).length ≤ dets.length
      ∧ List.Pairwise (fun a b =>
          calculate_iou a.bbox b.bbox ≤ thr) (apply_person_nms dets thr))
    ∧ ((deduplicate_weapons dets).length ≤ dets.length
      ∧ List.Pairwise (fun a b =>
          (a.cls = b.cls → calculate_iou a.bbox b.bbox ≤ 1/5)
          ∧ calculate_iou a.bbox b.bbox ≤ 2/5) (deduplicate_weapons dets)) := by
  rcases hd : dets with _ | ⟨d, ds⟩
  · simp [apply_nms, apply_person_nms, deduplicate_weapons]
  · rw [← hd]
    have hne : dets.isEmpty = false := by rw [hd]; rfl
    refine ⟨⟨?_, ?_⟩, ⟨?_, ?_⟩, ⟨?_, ?_⟩⟩
    · rw [apply_nms, if_neg (by simp [hne])]
      exact nms_length_out _ dets
    · rw [apply_nms, if_neg (by simp [hne])]
      refine (nms_pairwise_out _ dets).imp ?_
      intro a b hab hcls
      by_contra hgt
      apply absurd hab
      simp only [Bool.not_eq_false, Bool.and_eq_true, decide_eq_true_eq,
        beq_iff_eq]
      exact ⟨by rw [calculate_iou_comm]; exact lt_of_not_le hgt, hcls.symm⟩
    · rw [apply_person_nms, if_neg (by simp [hne])]
      exact nms_length_out _ dets
    · rw [apply_person_nms, if_neg (by simp [hne])]
      refine (nms_pairwise_out _ dets).imp ?_
      intro a b hab
      by_contra hgt
      apply absurd hab
      simp only [Bool.not_eq_false, decide_eq_true_eq]
      rw [calculate_iou_comm]
      exact lt_of_not_le hgt
    · rw [deduplicate_weapons, if_neg (by simp [hne])]
      exact nms_length_out _ dets
    · rw [deduplicate_weapons, if_neg (by simp [hne])]
      refine (nms_pairwise_out _ dets).imp ?_
      intro a b hab
      rw [Bool.or_eq_false_iff, Bool.and_eq_false_iff] at hab
      constructor
      · intro hcls
        rcases hab.1 with h1 | h1
        · rw [calculate_iou_comm]
          simpa using h1
        · exfalso
          simp [hcls] at h1
      · rw [calculate_iou_comm]
        simpa using hab.2

/-- C10: on nonempty input each deduplication routine returns a nonempty
subset of the input whose first element has maximal confidence; kept
detections are input detections, unchanged. -/
theorem dedupe_subset_and_head_max (dets : List Detection) (thr : ℚ)
    (h : dets ≠ []) :
    ((∃ d0, (apply_nms dets thr).head? = some d0 ∧ d0 ∈ dets
        ∧ ∀ d ∈ dets, d.confidence ≤ d0.confidence)
      ∧ ∀ x ∈ apply_nms dets thr, x ∈ dets)
    ∧ ((∃ d0, (apply_person_nms dets thr).head? = some d0 ∧ d0 ∈ dets
        ∧ ∀ d ∈ dets, d.confidence ≤ d0.confidence)
      ∧ ∀ x ∈ apply_person_nms dets thr, x ∈ dets)
    ∧ ((∃ d0, (deduplicate_weapons dets).head? = some d0 ∧ d0 ∈ dets
        ∧ ∀ d ∈ dets, d.confidence ≤ d0.confidence)
      ∧ ∀ x ∈ deduplicate_weapons dets, x ∈ dets) := by
  have hne : dets.isEmpty = false := by
    rcases dets with _ | ⟨d, ds⟩
    · exact absurd rfl h
    · rfl
  refine ⟨?_, ?_, ?_⟩
  · rw [apply_nms, if_neg (by simp [hne])]
    exact nms_head_max _ dets h
  · rw [apply_person_nms, if_neg (by simp [hne])]
    exact nms_head_max _ dets h
  · rw [deduplicate_weapons, if_neg (by simp [hne])]
    exact nms_head_max _ dets h

/-- Witness for the subset / maximal-head theorem on a concrete two-weapon
input. -/
theorem dedupe_subset_and_head_max_witness :
    ((apply_nms [⟨⟨0, 0, 10, 10⟩, "gun", 1/2⟩, ⟨⟨0, 0, 10, 10⟩, "gun", 9/10⟩]
        (1/2)).head?).isSome = true := by
  rcases (dedupe_subset_and_head_max
      [⟨⟨0, 0, 10, 10⟩, "gun", 1/2⟩, ⟨⟨0, 0, 10, 10⟩, "gun", 9/10⟩] (1/2)
      (by simp)).1.1 with ⟨d0, hd0, -, -⟩
  rw [hd0]
  rfl

end Surveillance
